import Mathlib

/-!
Verification development for the VisuaLex resolution-and-caching layer
(`app.py`).  The Python source is shallowly embedded: pure functions become
Lean functions, module-level mutable state (the three `TTLCache` instances,
`sys_op.drivers`, the download directory) becomes explicit state passed
through each operation, and Python exceptions become `Except`/`Option`
results.  Collaborators of the core that live in modules outside the
embedded source (`tools.norma`, `tools.urngenerator`, `tools.sys_op`,
`tools.pdfextractor`) are modelled from the specification's interface
contracts; each such definition says so in its doc comment.
-/

namespace VisuaLex

/-! ## Time-to-live cache (`cachetools.TTLCache(maxsize=100, ttl=600)`)

The three caches of `app.py` (`norma_cache`, `article_cache`,
`brocardi_cache`) are `cachetools.TTLCache` instances with `ttl = 600`,
wrapped by the `cachetools.cached` decorator (no lock).  An entry stores its
value together with its insertion time; a lookup at time `t` returns the
entry iff `t < insertTime + ttl` (in `cachetools` an entry whose expiry time
`insertTime + ttl` is not strictly in the future is treated as absent).
Capacity eviction (LRU, `maxsize = 100`) is not modelled: no scenario proved
below ever holds more than a handful of entries, so the capacity policy
never fires there. -/

/-- Cache contents: a map from keys to (value, insertion time). -/
def CacheMap (K V : Type) : Type := K → Option (V × Nat)

/-- The empty cache. -/
def CacheMap.empty (K V : Type) : CacheMap K V := fun _ => none

/-- Lookup at time `t`: an entry inserted at `ti` is live iff `t < ti + ttl`;
an expired entry is treated as absent. -/
def lookupTTL (ttl : Nat) (m : CacheMap K V) (k : K) (t : Nat) : Option V :=
  match m k with
  | some (v, ti) => if t < ti + ttl then some v else none
  | none => none

/-- Insertion at time `t` replaces any previous entry for the key. -/
def insertTTL [DecidableEq K] (m : CacheMap K V) (k : K) (v : V) (t : Nat) :
    CacheMap K V :=
  fun k' => if k' = k then some (v, t) else m k'

/-- Outcome of one pass through the `cachetools.cached` wrapper: the value
returned to the caller (or the propagated exception), the cache contents
afterwards, and whether the wrapped compute function was invoked. -/
structure CallResult (K V E : Type) where
  res : Except E V
  cache : CacheMap K V
  computed : Bool

/-- One sequential call through the `cachetools.cached` wrapper at time `t`:
look the key up; on a live hit return the cached value without invoking the
compute function; on a miss invoke the compute function, and only on success
insert the result.  A raised exception propagates and inserts nothing. -/
def cachedCall [DecidableEq K] (ttl : Nat) (m : CacheMap K V) (k : K)
    (f : Except E V) (t : Nat) : CallResult K V E :=
  match lookupTTL ttl m k t with
  | some v => ⟨Except.ok v, m, false⟩
  | none =>
    match f with
    | Except.ok v => ⟨Except.ok v, insertTTL m k v t, true⟩
    | Except.error e => ⟨Except.error e, m, true⟩

/-! ## Interleaving model of the unlocked `cached` wrapper (single key)

`@cached(cache, key=...)` in `app.py` is used with no lock, so a concurrent
call for the same key interleaves three atomic phases: (1) look the key up,
(2) on a miss run the compute function, (3) store the result and return.
The model below runs two callers of the wrapper for one fixed key under an
explicit schedule (the TTL clock is held fixed, so liveness of an entry does
not change during the run).  `count` counts invocations of the compute
function. -/

/-- Progress of one caller through the unlocked cache wrapper. -/
inductive Phase (V : Type) where
  | ready : Phase V
  | missed : Phase V
  | gotValue : V → Phase V
  | finished : V → Phase V
deriving DecidableEq

/-- Joint state of the single-key cache slot and two concurrent callers. -/
structure FlightState (V : Type) where
  slot : Option V
  count : Nat
  pa : Phase V
  pb : Phase V
deriving DecidableEq

/-- Advance one caller by one atomic phase of the unlocked wrapper:
lookup (hit returns immediately; miss proceeds), compute (increments the
invocation count), then insert-and-return. -/
def phaseStep (f : V) (slot : Option V) (count : Nat) (p : Phase V) :
    Option V × Nat × Phase V :=
  match p with
  | Phase.ready =>
    match slot with
    | some v => (slot, count, Phase.finished v)
    | none => (slot, count, Phase.missed)
  | Phase.missed => (slot, count + 1, Phase.gotValue f)
  | Phase.gotValue v => (some v, count, Phase.finished v)
  | Phase.finished v => (slot, count, Phase.finished v)

/-- Scheduler step: `false` advances caller A, `true` advances caller B. -/
def flightStep (f : V) (s : FlightState V) (tid : Bool) : FlightState V :=
  if tid then
    match phaseStep f s.slot s.count s.pb with
    | (slot, count, p) => ⟨slot, count, s.pa, p⟩
  else
    match phaseStep f s.slot s.count s.pa with
    | (slot, count, p) => ⟨slot, count, p, s.pb⟩

/-- Run a schedule (list of thread choices) from a state. -/
def flightRun (f : V) (s : FlightState V) : List Bool → FlightState V
  | [] => s
  | tid :: rest => flightRun f (flightStep f s tid) rest

/-- Initial state: no live entry for the key, no compute invocations yet,
both callers about to enter the wrapper. -/
def flightInit (V : Type) : FlightState V :=
  ⟨none, 0, Phase.ready, Phase.ready⟩

/-! ## Act reference model (`tools.norma`)

`Norma` and `NormaVisitata` live in `tools.norma`, outside the embedded
source.  Modelled from the spec: they are immutable value types (§3), so two
instances built from equal fields are equal (value equality, `DecidableEq`).
Only the constructor fields that `app.py` passes are modelled. -/

/-- Modelled from the spec: an `Act` (`Norma`), an immutable value type with
act type, optional promulgation date, optional act number and optional
resolved URL. -/
structure Norma where
  tipo_atto : String
  data : Option String := none
  numero_atto : Option String := none
  url : Option String := none
deriving DecidableEq

/-- Modelled from the spec: an `ActReference` (`NormaVisitata`), an immutable
value type carrying the owning act, article designator, version label,
version date and an optionally pre-supplied identifier. -/
structure NormaVisitata where
  norma : Norma
  numero_articolo : Option String := none
  versione : Option String := none
  data_versione : Option String := none
  urn : Option String := none
deriving DecidableEq

/-! ## Input canonicalization and resolution (`app.py` lines 29-51)

A JSON request body is a Python dict; it is embedded as an association list
of (field name, value) pairs whose keys are distinct (a dict cannot repeat a
key).  `data[k]` is embedded as first-match lookup, with `none` standing for
the raised `KeyError`; `data.get(k)` is the same lookup used totally. -/

/-- Python `data[key]` / `data.get(key)` on the embedded dict. -/
def lookupField : List (String × String) → String → Option String
  | [], _ => none
  | (k, v) :: rest, key => if key = k then some v else lookupField rest key

/-- Ordering used by Python `sorted` on `(name, value)` string pairs:
lexicographic, name first. -/
def itemLe (a b : String × String) : Prop :=
  a.1 < b.1 ∨ (a.1 = b.1 ∧ a.2 ≤ b.2)

instance : DecidableRel itemLe := fun a b =>
  inferInstanceAs (Decidable (a.1 < b.1 ∨ (a.1 = b.1 ∧ a.2 ≤ b.2)))

instance : IsTotal (String × String) itemLe where
  total a b := by
    rcases lt_trichotomy a.1 b.1 with h | h | h
    · exact Or.inl (Or.inl h)
    · rcases le_total a.2 b.2 with h2 | h2
      · exact Or.inl (Or.inr ⟨h, h2⟩)
      · exact Or.inr (Or.inr ⟨h.symm, h2⟩)
    · exact Or.inr (Or.inl h)

instance : IsTrans (String × String) itemLe where
  trans a b c hab hbc := by
    rcases hab with h1 | ⟨h1, h1'⟩ <;> rcases hbc with h2 | ⟨h2, h2'⟩
    · exact Or.inl (h1.trans h2)
    · exact Or.inl (h2 ▸ h1)
    · exact Or.inl (h1 ▸ h2)
    · exact Or.inr ⟨h1.trans h2, h1'.trans h2'⟩

instance : IsAntisymm (String × String) itemLe where
  antisymm a b hab hba := by
    rcases hab with h1 | ⟨h1, h1'⟩ <;> rcases hba with h2 | ⟨h2, h2'⟩
    · exact absurd h2 (lt_asymm h1)
    · exact absurd h1 (h2 ▸ lt_irrefl _)
    · exact absurd h2 (h1 ▸ lt_irrefl _)
    · exact Prod.ext h1 (le_antisymm h1' h2')

/-- `convert_to_hashable` (`app.py` line 29): `tuple(sorted(data.items()))`,
the cache key for reference resolution — the field pairs sorted by name
(ties by value). -/
def convert_to_hashable (data : List (String × String)) : List (String × String) :=
  List.insertionSort itemLe data

/-- `create_norma_instance` (`app.py` line 35): read the five required fields
(`KeyError`, i.e. `none`, if one is missing), the optional `version_date`,
and build the `NormaVisitata`. -/
def create_norma_instance (data : List (String × String)) : Option NormaVisitata :=
  match lookupField data "act_type", lookupField data "date",
      lookupField data "act_number", lookupField data "article",
      lookupField data "version" with
  | some act_type, some date, some act_number, some article, some version =>
    some
      { norma := { tipo_atto := act_type, data := some date,
                   numero_atto := some act_number }
        numero_articolo := some article
        versione := some version
        data_versione := lookupField data "version_date" }
  | _, _, _, _, _ => none

/-! ## Act reconstruction in the article and commentary routes
(`app.py` lines 75-113) -/

/-- The `Norma` built by the `extract_article` route (`app.py` line 96):
`Norma(tipo_atto="costituzione", url=urn)` — the act type is the fixed
string, not derived from the supplied identifier. -/
def extract_article_norma (urn : String) : Norma :=
  { tipo_atto := "costituzione", url := some urn }

/-- The `Norma` built inside `get_brocardi_information` (`app.py` line 106):
`Norma(tipo_atto="costituzione", url=urn)`. -/
def brocardi_norma (urn : String) : Norma :=
  { tipo_atto := "costituzione", url := some urn }

/-- The article cache key (`app.py` line 75):
`key=lambda urn, article: (urn, article)` applied to the positional
arguments of `extract_article_text(norma, article)` — so the key is the
`Norma` object paired with the article designator. -/
def article_cache_key (norma : Norma) (article : String) : Norma × String :=
  (norma, article)

/-! ## PDF export and the shared rendering handle (`app.py` lines 149-185)

`sys_op` and `pdfextractor` live outside the embedded source and are
modelled from the spec (§4.5 and §6).  The mutable environment of the route
— the `sys_op.drivers` slot, the filesystem under the process working
directory, and instrumentation counters for the external calls — is an
explicit state record.  Handles are numbered so that distinct creations are
distinguishable. -/

/-- Mutable environment of `export_pdf`: the shared driver slot
(`sys_op.drivers`), a supply of fresh handle ids, the set of existing file
paths, and counters of rendering-collaborator and handle-creation calls. -/
structure SysState where
  drivers : List Nat
  nextDriver : Nat
  files : List String
  renderCount : Nat
  setupCount : Nat
deriving DecidableEq

/-- Modelled from the spec: `sys_op.setup_driver()` creates a new handle,
stores it in the shared slot and returns it (§4.5: created lazily on first
need). -/
def setup_driver (s : SysState) : Nat × SysState :=
  (s.nextDriver,
    { s with
      drivers := s.drivers ++ [s.nextDriver]
      nextDriver := s.nextDriver + 1
      setupCount := s.setupCount + 1 })

/-- Modelled from the spec: `sys_op.close_driver()` closes the current
handle if one exists and clears the shared slot; with no live handle it is a
no-op (§4.5). -/
def close_driver (s : SysState) : SysState :=
  { s with drivers := [] }

/-- The process working directory (`os.getcwd()`), an arbitrary fixed
absolute path. -/
def cwd : String := "/srv/visualex"

/-- Python `os.path.join` on two components: an absolute second component
(one beginning with the path separator) discards the first. -/
def pathJoin (a b : String) : String :=
  if b.data.head? = some '/' then b else a ++ "/" ++ b

/-- The download-directory path of a filename:
`os.path.join(os.getcwd(), "download", filename)`. -/
def downloadPath (fname : String) : String :=
  pathJoin (pathJoin cwd "download") fname

/-- `url_for('downloaded_file', filename=filename)`: the route URL serving a
file of the download directory (`app.py` line 145). -/
def url_for_download (fname : String) : String :=
  "/download/" ++ fname

/-- Modelled from the spec: `pdfextractor.extract_pdf(driver, urn)` renders
the act named by `urn` into the download directory at the filename
deterministically derived from the identifier and returns that path (§6:
rendered files are addressed by a filename derived from the canonical
identifier, stored under a single download directory); on failure it returns
no path.  `utf` is the filename derivation shared with
`urngenerator.urn_to_filename`; `renderOk` says whether this render
succeeds. -/
def extract_pdf (utf : String → Option String) (renderOk : Bool)
    (_driver : Nat) (urn : String) (s : SysState) : Option String × SysState :=
  let s1 := { s with renderCount := s.renderCount + 1 }
  if renderOk then
    match utf urn with
    | some fname => (some (downloadPath fname), { s1 with files := downloadPath fname :: s1.files })
    | none => (none, s1)
  else (none, s1)

/-- Python `os.rename(src, dst)` on the modelled filesystem. -/
def osRename (src dst : String) (files : List String) : List String :=
  dst :: files.erase src

/-- Result of one `export_pdf` request: the JSON payload (success URL or the
error message of the caught exception) and whether the driver-reuse branch
(`driver = sys_op.drivers[0]`, `app.py` line 169) was taken. -/
structure ExportResult where
  outcome : Except String String
  reusedDriver : Bool

/-- The render-and-move tail of `export_pdf` (`app.py` lines 171-177): call
the rendering collaborator with the chosen driver, raise if it returned no
path, else `os.rename(os.path.join(os.getcwd(), "download", pdf_path),
pdf_path)` and answer with the download URL of the derived filename. -/
def export_render_step (utf : String → Option String) (renderOk : Bool)
    (urn fname : String) (reused : Bool) (driver : Nat) (s : SysState) :
    ExportResult × SysState :=
  match extract_pdf utf renderOk driver urn s with
  | (none, s2) => (⟨Except.error "Error generating PDF", reused⟩, s2)
  | (some p, s2) =>
    (⟨Except.ok (url_for_download fname), reused⟩,
      { s2 with files := osRename (pathJoin (pathJoin cwd "download") p) p s2.files })

/-- The `try` body of `export_pdf` (`app.py` lines 151-179): derive the
filename from the URN (`ValueError` if falsy), reuse the file if it already
exists at the derived download path, otherwise set up or reuse the driver
and render. -/
def export_pdf_body (utf : String → Option String) (renderOk : Bool)
    (urn : String) (s : SysState) : ExportResult × SysState :=
  match utf urn with
  | none => (⟨Except.error "Invalid URN", false⟩, s)
  | some fname =>
    let pdf_path := downloadPath fname
    if pdf_path ∈ s.files then
      (⟨Except.ok (url_for_download fname), false⟩, s)
    else
      match s.drivers with
      | [] =>
        export_render_step utf renderOk urn fname false
          (setup_driver s).1 (setup_driver s).2
      | d :: _ => export_render_step utf renderOk urn fname true d s

/-- `export_pdf` (`app.py` line 149): run the `try` body — the `except`
clause turns any raised exception into an error payload — and then, in
`finally`, unconditionally close the driver. -/
def export_pdf (utf : String → Option String) (renderOk : Bool)
    (urn : String) (s : SysState) : ExportResult × SysState :=
  let r := export_pdf_body utf renderOk urn s
  (r.1, close_driver r.2)

/-! ## Identifier builder (§4.2)

Modelled from the spec: the identifier builder lives in
`tools.urngenerator` / `tools.norma`, outside the embedded source, so
`build` and `parse` follow the grammar of §4.2:

`scheme ":" authority ":" act-type ":" [date ";"] [number] ["~art" article]
["!" version ["@" version-date]]`

with `scheme = "urn"` and `authority = "nir"` fixed, absent optional fields
omitting their segment entirely, article before version.  As §9 notes, the
exact field alphabet is left to the implementer: here a field value is a
nonempty string over characters other than the five separator characters
`:`, `;`, `~`, `!`, `@`.  Identifiers are embedded as `List Char`;
`parse` returning `none` models rejection with `MalformedIdentifier`. -/

/-- The separator characters of the identifier grammar. -/
def sepChars : List Char := [':', ';', '~', '!', '@']

/-- A usable field value: nonempty and free of separator characters. -/
def okField (l : List Char) : Bool :=
  !l.isEmpty && l.all (fun c => decide (c ∉ sepChars))

/-- Field-value condition on an optional (omittable) field. -/
def okOptField : Option (List Char) → Bool
  | none => true
  | some l => okField l

/-- Modelled from the spec: the fields of an `ActReference` that its
canonical identifier encodes (§4.2: the builder only encodes/decodes fields
already present on the reference). -/
structure ActReference where
  act_type : List Char
  date : Option (List Char)
  number : Option (List Char)
  article : Option (List Char)
  version : Option (List Char)
  version_date : Option (List Char)
deriving DecidableEq

/-- A valid reference: every field over the grammar alphabet, and a version
date only on a reference that carries a version label (the grammar nests the
version-date segment inside the version segment). -/
def validRef (r : ActReference) : Bool :=
  okField r.act_type && okOptField r.date && okOptField r.number &&
    okOptField r.article && okOptField r.version && okOptField r.version_date &&
    (r.version_date.isNone || r.version.isSome)

/-- Fixed scheme segment. -/
def schemeChars : List Char := ['u', 'r', 'n']

/-- Fixed authority segment. -/
def authorityChars : List Char := ['n', 'i', 'r']

/-- Date segment: `date ";"` when present, else empty. -/
def datePart : Option (List Char) → List Char
  | none => []
  | some d => d ++ [';']

/-- Number segment: the number itself when present, else empty. -/
def numPart : Option (List Char) → List Char
  | none => []
  | some n => n

/-- Article segment: `"~art" article` when present, else empty. -/
def artPart : Option (List Char) → List Char
  | none => []
  | some a => '~' :: 'a' :: 'r' :: 't' :: a

/-- Version segment: `"!" version ["@" version-date]` when a version is
present, else empty (a version date without a version label has no
segment). -/
def verPart : Option (List Char) → Option (List Char) → List Char
  | none, _ => []
  | some v, none => '!' :: v
  | some v, some w => '!' :: v ++ '@' :: w

/-- The post-`act-type` portion of the identifier. -/
def buildTail (r : ActReference) : List Char :=
  datePart r.date ++ numPart r.number ++ artPart r.article ++
    verPart r.version r.version_date

/-- Build the canonical identifier of a reference. -/
def build (r : ActReference) : List Char :=
  schemeChars ++ ':' :: authorityChars ++ ':' :: r.act_type ++ ':' :: buildTail r

/-- Split a list at the first occurrence of `sep`: `some (before, after)`
when `sep` occurs, `none` otherwise. -/
def splitOnFirst (sep : Char) : List Char → Option (List Char × List Char)
  | [] => none
  | c :: cs =>
    if c = sep then some ([], cs)
    else
      match splitOnFirst sep cs with
      | none => none
      | some (a, b) => some (c :: a, b)

/-- Decode the `[date ";"] [number]` portion. -/
def parseDateNumber (p2 : List Char) :
    Option (Option (List Char) × Option (List Char)) :=
  match splitOnFirst ';' p2 with
  | some (d, n) =>
    if okField d then
      if n.isEmpty then some (some d, none)
      else if okField n then some (some d, some n) else none
    else none
  | none =>
    if p2.isEmpty then some (none, none)
    else if okField p2 then some (none, some p2) else none

/-- Decode the text after the first `~`, which must carry the literal `art`
marker followed by the article designator. -/
def parseArticleList : List Char → Option (Option (List Char))
  | 'a' :: 'r' :: 't' :: rest => if okField rest then some (some rest) else none
  | _ => none

/-- Decode the article segment: absent when no `~` occurred. -/
def parseArticle : Option (List Char) → Option (Option (List Char))
  | none => some none
  | some ap => parseArticleList ap

/-- Decode the text after the first `!`: the version label with an optional
`@`-separated version date. -/
def parseVersionList (vp : List Char) :
    Option (Option (List Char) × Option (List Char)) :=
  match splitOnFirst '@' vp with
  | none => if okField vp then some (some vp, none) else none
  | some (v, w) =>
    if okField v && okField w then some (some v, some w) else none

/-- Decode the version segment: absent when no `!` occurred. -/
def parseVersion : Option (List Char) →
    Option (Option (List Char) × Option (List Char))
  | none => some (none, none)
  | some vp => parseVersionList vp

/-- The text a `~` split contributes back when reassembling an identifier. -/
def tildeSuffix : Option (List Char) → List Char
  | none => []
  | some ap => '~' :: ap

/-- The text a `!` split contributes back when reassembling an identifier. -/
def bangSuffix : Option (List Char) → List Char
  | none => []
  | some vp => '!' :: vp

/-- Assemble a reference from the three decoded tail pieces. -/
def parseTail3 (actT p2 : List Char) (apOpt vpOpt : Option (List Char)) :
    Option ActReference :=
  match parseDateNumber p2, parseArticle apOpt, parseVersion vpOpt with
  | some (d, n), some a, some (v, vd) => some ⟨actT, d, n, a, v, vd⟩
  | _, _, _ => none

/-- Split the article segment off the pre-version text. -/
def parseTail2 (actT p : List Char) (vpOpt : Option (List Char)) :
    Option ActReference :=
  match splitOnFirst '~' p with
  | some (p2, ap) => parseTail3 actT p2 (some ap) vpOpt
  | none => parseTail3 actT p none vpOpt

/-- Split the version segment off the post-`act-type` text. -/
def parseTail (actT tail : List Char) : Option ActReference :=
  match splitOnFirst '!' tail with
  | some (p, vp) => parseTail2 actT p (some vp)
  | none => parseTail2 actT tail none

/-- Parse a canonical identifier; `none` models rejection with
`MalformedIdentifier`. -/
def parse (s : List Char) : Option ActReference :=
  match splitOnFirst ':' s with
  | some (sch, r1) =>
    if sch = schemeChars then
      match splitOnFirst ':' r1 with
      | some (auth, r2) =>
        if auth = authorityChars then
          match splitOnFirst ':' r2 with
          | some (actT, tail) =>
            if okField actT then parseTail actT tail else none
          | none => none
        else none
      | none => none
    else none
  | none => none

/-! ## Lemmas: the time-to-live cache -/

theorem lookupTTL_insert {K V : Type} [DecidableEq K] (ttl : Nat)
    (m : CacheMap K V) (k : K) (v : V) (t t' : Nat) :
    lookupTTL ttl (insertTTL m k v t) k t' =
      if t' < t + ttl then some v else none := by
  simp [lookupTTL, insertTTL]

theorem lookupTTL_none_mono {K V : Type} (ttl : Nat) (m : CacheMap K V)
    (k : K) {t t' : Nat} (h : lookupTTL ttl m k t = none) (ht : t ≤ t') :
    lookupTTL ttl m k t' = none := by
  unfold lookupTTL at h ⊢
  cases hm : m k with
  | none => simp only [hm]
  | some p =>
    obtain ⟨v, ti⟩ := p
    simp only [hm] at h ⊢
    by_cases hlt : t < ti + ttl
    · rw [if_pos hlt] at h
      exact absurd h (by simp)
    · rw [if_neg (show ¬ t' < ti + ttl by omega)]

theorem cachedCall_miss {K V E : Type} [DecidableEq K] (ttl : Nat)
    (m : CacheMap K V) (k : K) (f : Except E V) (t : Nat)
    (h : lookupTTL ttl m k t = none) :
    cachedCall ttl m k f t =
      match f with
      | Except.ok v => ⟨Except.ok v, insertTTL m k v t, true⟩
      | Except.error e => ⟨Except.error e, m, true⟩ := by
  unfold cachedCall
  rw [h]

theorem cachedCall_hit {K V E : Type} [DecidableEq K] (ttl : Nat)
    (m : CacheMap K V) (k : K) (f : Except E V) (t : Nat) (v : V)
    (h : lookupTTL ttl m k t = some v) :
    cachedCall ttl m k f t = ⟨Except.ok v, m, false⟩ := by
  unfold cachedCall
  rw [h]

/-! ## Lemmas: PDF export -/

theorem downloadPath_head (f : String) : (downloadPath f).data.head? = some '/' := by
  rw [show downloadPath f = pathJoin "/srv/visualex/download" f from rfl]
  unfold pathJoin
  by_cases hf : f.data.head? = some '/'
  · rw [if_pos hf]
    exact hf
  · rw [if_neg hf]
    rfl

theorem pathJoin_abs (a b : String) (h : b.data.head? = some '/') :
    pathJoin a b = b := by
  simp [pathJoin, h]

theorem close_driver_drivers (s : SysState) : (close_driver s).drivers = [] := rfl

theorem export_pdf_drivers_nil (utf : String → Option String) (renderOk : Bool)
    (urn : String) (s : SysState) :
    ((export_pdf utf renderOk urn s).2).drivers = [] := rfl

theorem export_render_step_reused (utf : String → Option String)
    (renderOk : Bool) (urn fname : String) (reused : Bool) (driver : Nat)
    (s : SysState) :
    (export_render_step utf renderOk urn fname reused driver s).1.reusedDriver =
      reused := by
  unfold export_render_step
  cases hx : extract_pdf utf renderOk driver urn s with
  | mk p s2 => cases p <;> rfl

theorem export_render_step_ok {utf : String → Option String} {urn fname : String}
    (reused : Bool) (driver : Nat) (s : SysState) (hu : utf urn = some fname) :
    export_render_step utf true urn fname reused driver s =
      (⟨Except.ok (url_for_download fname), reused⟩,
        { s with
          renderCount := s.renderCount + 1
          files := downloadPath fname :: s.files }) := by
  have hx : extract_pdf utf true driver urn s =
      (some (downloadPath fname),
        { s with
          renderCount := s.renderCount + 1
          files := downloadPath fname :: s.files }) := by
    unfold extract_pdf
    rw [hu]
    rfl
  unfold export_render_step
  rw [hx]
  simp [osRename, pathJoin_abs _ _ (downloadPath_head fname), List.erase_cons_head]

theorem export_body_no_reuse {utf : String → Option String} {renderOk : Bool}
    {urn : String} {s : SysState} (h : s.drivers = []) :
    (export_pdf_body utf renderOk urn s).1.reusedDriver = false := by
  unfold export_pdf_body
  cases hu : utf urn with
  | none => rfl
  | some fname =>
    by_cases hmem : downloadPath fname ∈ s.files
    · simp [hmem]
    · simp only [if_neg hmem]
      split
      · apply export_render_step_reused
      · rename_i d tail hds
        rw [h] at hds
        exact absurd hds (by simp)

theorem export_body_render {utf : String → Option String} {urn fname : String}
    {s : SysState} (hu : utf urn = some fname)
    (hmem : downloadPath fname ∉ s.files) :
    (export_pdf_body utf true urn s).1.outcome =
        Except.ok (url_for_download fname) ∧
      (export_pdf_body utf true urn s).2.renderCount = s.renderCount + 1 ∧
      downloadPath fname ∈ (export_pdf_body utf true urn s).2.files ∧
      (s.drivers = [] →
        (export_pdf_body utf true urn s).2.setupCount = s.setupCount + 1) := by
  unfold export_pdf_body
  rw [hu]
  simp only [if_neg hmem]
  split
  · rw [export_render_step_ok false (setup_driver s).1 (setup_driver s).2 hu]
    exact ⟨rfl, rfl, by simp, fun _ => rfl⟩
  · rename_i d ds hds
    rw [export_render_step_ok true d s hu]
    exact ⟨rfl, rfl, by simp, fun hc => by rw [hc] at hds; exact absurd hds (by simp)⟩

theorem export_body_cached {utf : String → Option String} {renderOk : Bool}
    {urn fname : String} {s : SysState} (hu : utf urn = some fname)
    (hmem : downloadPath fname ∈ s.files) :
    export_pdf_body utf renderOk urn s =
      (⟨Except.ok (url_for_download fname), false⟩, s) := by
  unfold export_pdf_body
  rw [hu]
  simp [hmem]

/-! ## Lemmas: input canonicalization -/

theorem sortItems_perm_eq {d1 d2 : List (String × String)} (h : d1.Perm d2) :
    List.insertionSort itemLe d1 = List.insertionSort itemLe d2 :=
  List.eq_of_perm_of_sorted
    ((List.perm_insertionSort itemLe d1).trans
      (h.trans (List.perm_insertionSort itemLe d2).symm))
    (List.sorted_insertionSort itemLe d1)
    (List.sorted_insertionSort itemLe d2)

theorem lookupField_perm (key : String) :
    ∀ {d1 d2 : List (String × String)}, d1.Perm d2 →
      (d1.map Prod.fst).Nodup → lookupField d1 key = lookupField d2 key := by
  intro d1 d2 h
  induction h with
  | nil => intro _; rfl
  | cons x h ih =>
    intro hn
    obtain ⟨k, v⟩ := x
    simp only [List.map_cons, List.nodup_cons] at hn
    simp only [lookupField]
    by_cases hk : key = k
    · simp [hk]
    · simp [hk, ih hn.2]
  | swap x y l =>
    intro hn
    obtain ⟨kx, vx⟩ := x
    obtain ⟨ky, vy⟩ := y
    simp only [List.map_cons, List.nodup_cons, List.mem_cons, not_or] at hn
    have hne : ky ≠ kx := hn.1.1
    simp only [lookupField]
    by_cases h1 : key = ky
    · subst h1
      rw [if_pos rfl, if_neg hne, if_pos rfl]
    · by_cases h2 : key = kx
      · simp [h1, h2, Ne.symm hne]
      · simp [h1, h2]
  | trans h1 _ ih1 ih2 =>
    intro hn
    exact (ih1 hn).trans (ih2 ((h1.map Prod.fst).nodup hn))

/-! ## Lemmas: splitting and field values -/

theorem splitOnFirst_eq_none {sep : Char} {l : List Char} (h : sep ∉ l) :
    splitOnFirst sep l = none := by
  induction l with
  | nil => rfl
  | cons c cs ih =>
    rw [List.mem_cons, not_or] at h
    have hc : ¬ c = sep := fun e => h.1 e.symm
    simp [splitOnFirst, hc, ih h.2]

theorem splitOnFirst_append {sep : Char} {xs ys : List Char} (h : sep ∉ xs) :
    splitOnFirst sep (xs ++ sep :: ys) = some (xs, ys) := by
  induction xs with
  | nil => simp [splitOnFirst]
  | cons c cs ih =>
    rw [List.mem_cons, not_or] at h
    have hc : ¬ c = sep := fun e => h.1 e.symm
    simp [splitOnFirst, hc, ih h.2]

theorem splitOnFirst_sound {sep : Char} :
    ∀ {l a b : List Char}, splitOnFirst sep l = some (a, b) →
      l = a ++ sep :: b ∧ sep ∉ a := by
  intro l
  induction l with
  | nil => intro a b h; simp [splitOnFirst] at h
  | cons c cs ih =>
    intro a b h
    by_cases hc : c = sep
    · subst hc
      simp [splitOnFirst] at h
      obtain ⟨rfl, rfl⟩ := h
      simp
    · simp only [splitOnFirst, if_neg hc] at h
      cases hsp : splitOnFirst sep cs with
      | none => rw [hsp] at h; simp at h
      | some p =>
        obtain ⟨a', b'⟩ := p
        rw [hsp] at h
        simp only [Option.some.injEq, Prod.mk.injEq] at h
        obtain ⟨ha, hb⟩ := h
        obtain ⟨h1, h2⟩ := ih hsp
        subst ha hb
        refine ⟨by simp [h1], ?_⟩
        rw [List.mem_cons, not_or]
        exact ⟨fun e => hc e.symm, h2⟩

theorem okField_notMem {l : List Char} {c : Char} (h : okField l = true)
    (hc : c ∈ sepChars) : c ∉ l := by
  intro hm
  simp only [okField, Bool.and_eq_true, List.all_eq_true, decide_eq_true_eq] at h
  exact h.2 c hm hc

theorem okField_ne_nil {l : List Char} (h : okField l = true) : l ≠ [] := by
  intro e
  subst e
  simp [okField] at h

theorem okField_isEmpty {l : List Char} (h : okField l = true) :
    l.isEmpty = false := by
  cases l with
  | nil => simp [okField] at h
  | cons c cs => rfl

theorem not_mem_datePart {d : Option (List Char)} {c : Char}
    (hd : okOptField d = true) (hc : c ∈ sepChars) (hne : c ≠ ';') :
    c ∉ datePart d := by
  cases d with
  | none => simp [datePart]
  | some d =>
    simp only [okOptField] at hd
    intro hm
    rcases List.mem_append.mp hm with h1 | h1
    · exact okField_notMem hd hc h1
    · exact hne (by simpa using h1)

theorem not_mem_numPart {n : Option (List Char)} {c : Char}
    (hn : okOptField n = true) (hc : c ∈ sepChars) : c ∉ numPart n := by
  cases n with
  | none => simp [numPart]
  | some n => exact okField_notMem hn hc

theorem not_mem_artPart {a : Option (List Char)} {c : Char}
    (ha : okOptField a = true) (hc : c ∈ sepChars) (hne : c ≠ '~') :
    c ∉ artPart a := by
  cases a with
  | none => simp [artPart]
  | some a =>
    simp only [okOptField] at ha
    intro hm
    simp only [artPart, List.mem_cons] at hm
    rcases hm with h | h | h | h | h
    · exact hne h
    · subst h; revert hc; decide
    · subst h; revert hc; decide
    · subst h; revert hc; decide
    · exact okField_notMem ha hc h

/-! ## Lemmas: equation helpers for the tail parser -/

theorem parseTail_eq_none {actT tail : List Char}
    (h : splitOnFirst '!' tail = none) :
    parseTail actT tail = parseTail2 actT tail none := by
  unfold parseTail
  rw [h]

theorem parseTail_eq_some {actT tail p vp : List Char}
    (h : splitOnFirst '!' tail = some (p, vp)) :
    parseTail actT tail = parseTail2 actT p (some vp) := by
  unfold parseTail
  rw [h]

theorem parseTail2_eq_none {actT p : List Char} {vpOpt : Option (List Char)}
    (h : splitOnFirst '~' p = none) :
    parseTail2 actT p vpOpt = parseTail3 actT p none vpOpt := by
  unfold parseTail2
  rw [h]

theorem parseTail2_eq_some {actT p p2 ap : List Char} {vpOpt : Option (List Char)}
    (h : splitOnFirst '~' p = some (p2, ap)) :
    parseTail2 actT p vpOpt = parseTail3 actT p2 (some ap) vpOpt := by
  unfold parseTail2
  rw [h]

theorem parseTail3_compute {actT p2 : List Char} {apOpt vpOpt : Option (List Char)}
    {d n a v vd : Option (List Char)}
    (h1 : parseDateNumber p2 = some (d, n))
    (h2 : parseArticle apOpt = some a)
    (h3 : parseVersion vpOpt = some (v, vd)) :
    parseTail3 actT p2 apOpt vpOpt = some ⟨actT, d, n, a, v, vd⟩ := by
  unfold parseTail3
  rw [h1, h2, h3]

theorem parseVersion_no_date {v : List Char} (hv : okField v = true)
    (h : '@' ∉ v) : parseVersion (some v) = some (some v, none) := by
  simp [parseVersion, parseVersionList, splitOnFirst_eq_none h, hv]

theorem parseVersion_with_date {v w : List Char} (hv : okField v = true)
    (hw : okField w = true) (h : '@' ∉ v) :
    parseVersion (some (v ++ '@' :: w)) = some (some v, some w) := by
  simp [parseVersion, parseVersionList, splitOnFirst_append h, hv, hw]

theorem parseArticle_marker {a : List Char} (ha : okField a = true) :
    parseArticle (some ('a' :: 'r' :: 't' :: a)) = some (some a) := by
  simp [parseArticle, parseArticleList, ha]

theorem parseDateNumber_complete {d n : Option (List Char)}
    (hd : okOptField d = true) (hn : okOptField n = true) :
    parseDateNumber (datePart d ++ numPart n) = some (d, n) := by
  cases d with
  | none =>
    cases n with
    | none => rfl
    | some n =>
      simp only [okOptField] at hn
      have hsp : splitOnFirst ';' (datePart none ++ numPart (some n)) = none := by
        simp only [datePart, numPart, List.nil_append]
        exact splitOnFirst_eq_none (okField_notMem hn (by decide))
      unfold parseDateNumber
      rw [hsp]
      simp [datePart, numPart, okField_isEmpty hn, hn]
  | some d =>
    simp only [okOptField] at hd
    have e : datePart (some d) ++ numPart n = d ++ ';' :: numPart n := by
      simp [datePart]
    unfold parseDateNumber
    rw [e, splitOnFirst_append (okField_notMem hd (by decide))]
    cases n with
    | none => simp [numPart, hd]
    | some n =>
      simp only [okOptField] at hn
      simp [numPart, hd, hn, okField_isEmpty hn]

/-! ## Lemmas: round trip of the identifier builder -/

theorem parseTail2_build {actT : List Char} {d n a : Option (List Char)}
    {vpOpt : Option (List Char)} {v vd : Option (List Char)}
    (hd : okOptField d = true) (hn : okOptField n = true)
    (ha : okOptField a = true)
    (hver : parseVersion vpOpt = some (v, vd)) :
    parseTail2 actT (datePart d ++ numPart n ++ artPart a) vpOpt =
      some ⟨actT, d, n, a, v, vd⟩ := by
  have htilde : '~' ∉ datePart d ++ numPart n := by
    rw [List.mem_append, not_or]
    exact ⟨not_mem_datePart hd (by decide) (by decide),
      not_mem_numPart hn (by decide)⟩
  cases a with
  | none =>
    rw [show artPart none = [] from rfl, List.append_nil,
      parseTail2_eq_none (splitOnFirst_eq_none htilde)]
    exact parseTail3_compute (parseDateNumber_complete hd hn) rfl hver
  | some aa =>
    have ha' : okField aa = true := by simpa [okOptField] using ha
    rw [show artPart (some aa) = '~' :: ('a' :: 'r' :: 't' :: aa) from rfl,
      parseTail2_eq_some (splitOnFirst_append htilde)]
    exact parseTail3_compute (parseDateNumber_complete hd hn)
      (parseArticle_marker ha') hver

theorem parseTail_build {actT : List Char} {d n a v vd : Option (List Char)}
    (hd : okOptField d = true) (hn : okOptField n = true)
    (ha : okOptField a = true) (hv : okOptField v = true)
    (hvd : okOptField vd = true)
    (hcond : (vd.isNone || v.isSome) = true) :
    parseTail actT (datePart d ++ numPart n ++ artPart a ++ verPart v vd) =
      some ⟨actT, d, n, a, v, vd⟩ := by
  have hbang : '!' ∉ datePart d ++ numPart n ++ artPart a := by
    rw [List.mem_append, not_or, List.mem_append, not_or]
    exact ⟨⟨not_mem_datePart hd (by decide) (by decide),
      not_mem_numPart hn (by decide)⟩,
      not_mem_artPart ha (by decide) (by decide)⟩
  cases v with
  | none =>
    have hvdn : vd = none := by
      cases vd with
      | none => rfl
      | some w => simp at hcond
    subst hvdn
    rw [show verPart none none = [] from rfl, List.append_nil,
      parseTail_eq_none (splitOnFirst_eq_none hbang)]
    exact parseTail2_build hd hn ha rfl
  | some v =>
    have hv' : okField v = true := by simpa [okOptField] using hv
    have hAtV : '@' ∉ v := okField_notMem hv' (by decide)
    cases vd with
    | none =>
      rw [show verPart (some v) none = '!' :: v from rfl,
        parseTail_eq_some (splitOnFirst_append hbang)]
      exact parseTail2_build hd hn ha (parseVersion_no_date hv' hAtV)
    | some w =>
      have hw' : okField w = true := by simpa [okOptField] using hvd
      rw [show verPart (some v) (some w) = '!' :: (v ++ '@' :: w) from rfl,
        parseTail_eq_some (splitOnFirst_append hbang)]
      exact parseTail2_build hd hn ha (parseVersion_with_date hv' hw' hAtV)

theorem parse_build {r : ActReference} (h : validRef r = true) :
    parse (build r) = some r := by
  obtain ⟨actT, d, n, a, v, vd⟩ := r
  simp only [validRef, Bool.and_eq_true] at h
  obtain ⟨⟨⟨⟨⟨⟨hA, hd⟩, hn⟩, ha⟩, hv⟩, hvd⟩, hcond⟩ := h
  have hcolon : (':' : Char) ∉ actT := okField_notMem hA (by decide)
  unfold build parse
  rw [show schemeChars ++ ':' :: authorityChars ++ ':' :: actT ++ ':' :: buildTail ⟨actT, d, n, a, v, vd⟩ =
      schemeChars ++ ':' :: (authorityChars ++ ':' :: (actT ++ ':' :: buildTail ⟨actT, d, n, a, v, vd⟩)) from by simp,
    splitOnFirst_append (by decide)]
  simp only [if_pos rfl]
  rw [splitOnFirst_append (by decide : (':' : Char) ∉ authorityChars)]
  simp only [if_pos rfl]
  rw [splitOnFirst_append hcolon]
  simp only [if_true]
  show (if okField actT = true then
      parseTail actT (buildTail ⟨actT, d, n, a, v, vd⟩) else none) = _
  rw [if_pos hA]
  show parseTail actT (datePart d ++ numPart n ++ artPart a ++ verPart v vd) = _
  exact parseTail_build hd hn ha hv hvd hcond

/-! ## Lemmas: soundness of the identifier parser -/

theorem parseDateNumber_sound {p2 : List Char} {d n : Option (List Char)}
    (h : parseDateNumber p2 = some (d, n)) :
    okOptField d = true ∧ okOptField n = true ∧ datePart d ++ numPart n = p2 := by
  unfold parseDateNumber at h
  split at h
  · rename_i d' n' hsp
    obtain ⟨e1, -⟩ := splitOnFirst_sound hsp
    split at h
    · rename_i hd
      split at h
      · rename_i he
        simp only [Option.some.injEq, Prod.mk.injEq] at h
        obtain ⟨h1, h2⟩ := h
        subst h1 h2
        have hn' : n' = [] := by simpa using he
        subst hn'
        exact ⟨by simpa [okOptField] using hd, rfl, by simp [datePart, numPart, e1]⟩
      · rename_i he
        split at h
        · rename_i hn
          simp only [Option.some.injEq, Prod.mk.injEq] at h
          obtain ⟨h1, h2⟩ := h
          subst h1 h2
          exact ⟨by simpa [okOptField] using hd, by simpa [okOptField] using hn,
            by simp [datePart, numPart, e1]⟩
        · exact absurd h (by simp)
    · exact absurd h (by simp)
  · rename_i hsp
    split at h
    · rename_i he
      simp only [Option.some.injEq, Prod.mk.injEq] at h
      obtain ⟨h1, h2⟩ := h
      subst h1 h2
      have hp : p2 = [] := by simpa using he
      exact ⟨rfl, rfl, by simp [datePart, numPart, hp]⟩
    · rename_i he
      split at h
      · rename_i hp
        simp only [Option.some.injEq, Prod.mk.injEq] at h
        obtain ⟨h1, h2⟩ := h
        subst h1 h2
        exact ⟨rfl, by simpa [okOptField] using hp, by simp [datePart, numPart]⟩
      · exact absurd h (by simp)

theorem parseArticleList_sound {ap : List Char} {a : Option (List Char)}
    (h : parseArticleList ap = some a) :
    ∃ rest, a = some rest ∧ okField rest = true ∧ ap = 'a' :: 'r' :: 't' :: rest := by
  unfold parseArticleList at h
  split at h
  · rename_i rest
    split at h
    · rename_i hok
      refine ⟨rest, ?_, hok, rfl⟩
      simpa using h.symm
    · exact absurd h (by simp)
  · exact absurd h (by simp)

theorem parseArticle_sound {apOpt : Option (List Char)} {a : Option (List Char)}
    (h : parseArticle apOpt = some a) :
    okOptField a = true ∧ artPart a = tildeSuffix apOpt := by
  cases apOpt with
  | none =>
    simp only [parseArticle, Option.some.injEq] at h
    subst h
    exact ⟨rfl, rfl⟩
  | some ap =>
    obtain ⟨rest, rfl, hok, rfl⟩ := parseArticleList_sound h
    exact ⟨by simpa [okOptField] using hok, rfl⟩

theorem parseVersionList_sound {vp : List Char} {v vd : Option (List Char)}
    (h : parseVersionList vp = some (v, vd)) :
    okOptField v = true ∧ okOptField vd = true ∧
      (vd.isNone || v.isSome) = true ∧ verPart v vd = '!' :: vp := by
  unfold parseVersionList at h
  split at h
  · rename_i hsp
    split at h
    · rename_i hv
      simp only [Option.some.injEq, Prod.mk.injEq] at h
      obtain ⟨h1, h2⟩ := h
      subst h1 h2
      exact ⟨by simpa [okOptField] using hv, rfl, rfl, rfl⟩
    · exact absurd h (by simp)
  · rename_i v' w hsp
    obtain ⟨e1, -⟩ := splitOnFirst_sound hsp
    split at h
    · rename_i hvw
      rw [Bool.and_eq_true] at hvw
      simp only [Option.some.injEq, Prod.mk.injEq] at h
      obtain ⟨h1, h2⟩ := h
      subst h1 h2
      exact ⟨by simpa [okOptField] using hvw.1, by simpa [okOptField] using hvw.2,
        rfl, by simp [verPart, e1]⟩
    · exact absurd h (by simp)

theorem parseVersion_sound {vpOpt : Option (List Char)} {v vd : Option (List Char)}
    (h : parseVersion vpOpt = some (v, vd)) :
    okOptField v = true ∧ okOptField vd = true ∧
      (vd.isNone || v.isSome) = true ∧ verPart v vd = bangSuffix vpOpt := by
  cases vpOpt with
  | none =>
    simp only [parseVersion, Option.some.injEq, Prod.mk.injEq] at h
    obtain ⟨h1, h2⟩ := h
    subst h1 h2
    exact ⟨rfl, rfl, rfl, rfl⟩
  | some vp => exact parseVersionList_sound h

theorem parseTail3_sound {actT p2 : List Char} {apOpt vpOpt : Option (List Char)}
    {r : ActReference} (h : parseTail3 actT p2 apOpt vpOpt = some r) :
    r.act_type = actT ∧
      okOptField r.date = true ∧ okOptField r.number = true ∧
      okOptField r.article = true ∧ okOptField r.version = true ∧
      okOptField r.version_date = true ∧
      (r.version_date.isNone || r.version.isSome) = true ∧
      datePart r.date ++ numPart r.number = p2 ∧
      artPart r.article = tildeSuffix apOpt ∧
      verPart r.version r.version_date = bangSuffix vpOpt := by
  unfold parseTail3 at h
  cases h1 : parseDateNumber p2 with
  | none => rw [h1] at h; simp at h
  | some dn =>
    obtain ⟨d, n⟩ := dn
    cases h2 : parseArticle apOpt with
    | none => rw [h1, h2] at h; simp at h
    | some a =>
      cases h3 : parseVersion vpOpt with
      | none => rw [h1, h2, h3] at h; simp at h
      | some vv =>
        obtain ⟨v, vd⟩ := vv
        rw [h1, h2, h3] at h
        simp only [Option.some.injEq] at h
        subst h
        obtain ⟨hd, hn, hdn⟩ := parseDateNumber_sound h1
        obtain ⟨ha, hart⟩ := parseArticle_sound h2
        obtain ⟨hv, hvd, hcond, hver⟩ := parseVersion_sound h3
        exact ⟨rfl, hd, hn, ha, hv, hvd, hcond, hdn, hart, hver⟩

theorem parseTail2_sound {actT p : List Char} {vpOpt : Option (List Char)}
    {r : ActReference} (h : parseTail2 actT p vpOpt = some r) :
    r.act_type = actT ∧
      okOptField r.date = true ∧ okOptField r.number = true ∧
      okOptField r.article = true ∧ okOptField r.version = true ∧
      okOptField r.version_date = true ∧
      (r.version_date.isNone || r.version.isSome) = true ∧
      datePart r.date ++ numPart r.number ++ artPart r.article = p ∧
      verPart r.version r.version_date = bangSuffix vpOpt := by
  unfold parseTail2 at h
  split at h
  · rename_i p2 ap hsp
    obtain ⟨e1, -⟩ := splitOnFirst_sound hsp
    obtain ⟨h1, h2, h3, h4, h5, h6, h7, h8, h9, h10⟩ := parseTail3_sound h
    refine ⟨h1, h2, h3, h4, h5, h6, h7, ?_, h10⟩
    simp only [tildeSuffix] at h9
    rw [h8, h9]
    exact e1.symm
  · rename_i hsp
    obtain ⟨h1, h2, h3, h4, h5, h6, h7, h8, h9, h10⟩ := parseTail3_sound h
    refine ⟨h1, h2, h3, h4, h5, h6, h7, ?_, h10⟩
    simp only [tildeSuffix] at h9
    rw [h9, List.append_nil]
    exact h8

theorem parseTail_sound {actT tail : List Char} {r : ActReference}
    (h : parseTail actT tail = some r) (hA : okField actT = true) :
    validRef r = true ∧ r.act_type = actT ∧ buildTail r = tail := by
  unfold parseTail at h
  split at h
  · rename_i p vp hsp
    obtain ⟨e1, -⟩ := splitOnFirst_sound hsp
    obtain ⟨h1, h2, h3, h4, h5, h6, h7, h8, h9⟩ := parseTail2_sound h
    refine ⟨?_, h1, ?_⟩
    · simp [validRef, h1, hA, h2, h3, h4, h5, h6, h7]
    · simp only [bangSuffix] at h9
      unfold buildTail
      rw [h8, h9]
      exact e1.symm
  · rename_i hsp
    obtain ⟨h1, h2, h3, h4, h5, h6, h7, h8, h9⟩ := parseTail2_sound h
    refine ⟨?_, h1, ?_⟩
    · simp [validRef, h1, hA, h2, h3, h4, h5, h6, h7]
    · simp only [bangSuffix] at h9
      unfold buildTail
      rw [h8, h9, List.append_nil]

theorem parse_sound {s : List Char} {r : ActReference} (h : parse s = some r) :
    validRef r = true ∧ build r = s := by
  unfold parse at h
  split at h
  · rename_i sch r1 hsp1
    obtain ⟨e1, -⟩ := splitOnFirst_sound hsp1
    split at h
    · rename_i hsch
      split at h
      · rename_i auth r2 hsp2
        obtain ⟨e2, -⟩ := splitOnFirst_sound hsp2
        split at h
        · rename_i hauth
          split at h
          · rename_i actT tail hsp3
            obtain ⟨e3, -⟩ := splitOnFirst_sound hsp3
            split at h
            · rename_i hA
              obtain ⟨hval, hact, htail⟩ := parseTail_sound h hA
              refine ⟨hval, ?_⟩
              subst hsch hauth
              rw [e1, e2, e3]
              unfold build
              rw [hact, htail]
              simp
            · exact absurd h (by simp)
          · exact absurd h (by simp)
        · exact absurd h (by simp)
      · exact absurd h (by simp)
    · exact absurd h (by simp)
  · exact absurd h (by simp)

/-! ## Claim theorems -/

/-- Claim C1, counterexample.  The `cachetools.cached` wrappers of `app.py`
carry no lock, so two concurrent `getOrCompute` callers for the same
uncached key can both miss and each invoke the compute function: under the
schedule A-lookup, B-lookup, A-compute, A-insert, B-compute, B-insert both
callers finish with the computed value but the compute function has run
twice, not exactly once as the claim states. -/
theorem cached_single_flight_counterexample :
    (flightRun 7 (flightInit Nat) [false, true, false, false, true, true]).count = 2 ∧
      (flightRun 7 (flightInit Nat) [false, true, false, false, true, true]).pa =
        Phase.finished 7 ∧
      (flightRun 7 (flightInit Nat) [false, true, false, false, true, true]).pb =
        Phase.finished 7 ∧
      ¬ (flightRun 7 (flightInit Nat) [false, true, false, false, true, true]).count = 1 := by
  decide

/-- Claim C1, amended.  The unlocked cache wrapper gives no single-flight
guarantee: concurrent callers that miss may each invoke the compute function
(see the counterexample).  What does hold is that when the two calls for the
same key do not overlap, the compute function is invoked exactly once and
both callers finish with its value, the second served from the cache. -/
theorem cached_sequential_single_invocation (V : Type) (f : V) :
    (flightRun f (flightInit V) [false, false, false, true]).count = 1 ∧
      (flightRun f (flightInit V) [false, false, false, true]).pa = Phase.finished f ∧
      (flightRun f (flightInit V) [false, false, false, true]).pb = Phase.finished f :=
  ⟨rfl, rfl, rfl⟩

/-- Claim C5.  `export_pdf` runs `sys_op.close_driver()` in a `finally`
clause, so on every exit path of the unit of work — invalid URN, cached
file, failed render, successful render — the shared handle slot is cleared:
after any `export_pdf` request no live handle remains. -/
theorem export_releases_handle (utf : String → Option String) (renderOk : Bool)
    (urn : String) (s : SysState) :
    ((export_pdf utf renderOk urn s).2).drivers = [] :=
  export_pdf_drivers_nil utf renderOk urn s

/-- Claim C6, counterexample (the claim's negation).  Because the `finally`
clause closes the driver at the end of every `export_pdf` request, the
second of any two consecutive export operations — whatever the inputs,
outcomes, or starting state — never finds the first operation's handle
still open: its driver-reuse branch (`driver = sys_op.drivers[0]`) is never
taken.  Hence no sequence of two consecutive exports exists in which the
second reuses the first's handle. -/
theorem no_handle_reuse_across_exports :
    ¬ ∃ (utf1 utf2 : String → Option String) (ok1 ok2 : Bool)
        (urn1 urn2 : String) (s : SysState),
      ((export_pdf utf2 ok2 urn2 ((export_pdf utf1 ok1 urn1 s).2)).1).reusedDriver =
        true := by
  rintro ⟨utf1, utf2, ok1, ok2, urn1, urn2, s, h⟩
  have h' : (export_pdf_body utf2 ok2 urn2
      ((export_pdf utf1 ok1 urn1 s).2)).1.reusedDriver = true := h
  rw [export_body_no_reuse (export_pdf_drivers_nil utf1 ok1 urn1 s)] at h'
  exact Bool.false_ne_true h'

/-- Claim C6, amended.  The shared rendering handle is never reused across
sequential units of work: every export ends with the handle slot empty, so
a second consecutive export never takes the reuse branch, and when it has
to render it creates a fresh handle (`setup_driver` runs again). -/
theorem second_export_fresh_handle (utf1 utf2 : String → Option String)
    (ok1 : Bool) (urn1 urn2 fname2 : String) (s : SysState)
    (h2 : utf2 urn2 = some fname2)
    (hmem : downloadPath fname2 ∉ ((export_pdf utf1 ok1 urn1 s).2).files) :
    ((export_pdf utf2 true urn2 ((export_pdf utf1 ok1 urn1 s).2)).1).reusedDriver =
        false ∧
      ((export_pdf utf2 true urn2 ((export_pdf utf1 ok1 urn1 s).2)).2).setupCount =
        ((export_pdf utf1 ok1 urn1 s).2).setupCount + 1 := by
  have hd : ((export_pdf utf1 ok1 urn1 s).2).drivers = [] :=
    export_pdf_drivers_nil utf1 ok1 urn1 s
  exact ⟨export_body_no_reuse hd, (export_body_render h2 hmem).2.2.2 hd⟩

/-- Witness for the amended claim C6 at a concrete input: the first export
fails on an invalid URN, the second renders `b` and sets up a new handle. -/
theorem second_export_fresh_handle_witness :
    (fun _ : String => some "b.pdf") "b" = some "b.pdf" ∧
      downloadPath "b.pdf" ∉
        ((export_pdf (fun _ => none) false "a" ⟨[], 0, [], 0, 0⟩).2).files ∧
      (((export_pdf (fun _ => some "b.pdf") true "b"
            ((export_pdf (fun _ => none) false "a" ⟨[], 0, [], 0, 0⟩).2)).1).reusedDriver =
          false ∧
        ((export_pdf (fun _ => some "b.pdf") true "b"
            ((export_pdf (fun _ => none) false "a" ⟨[], 0, [], 0, 0⟩).2)).2).setupCount =
          ((export_pdf (fun _ => none) false "a" ⟨[], 0, [], 0, 0⟩).2).setupCount + 1) :=
  ⟨rfl, by decide,
    second_export_fresh_handle (fun _ => none) (fun _ => some "b.pdf") false
      "a" "b" "b.pdf" ⟨[], 0, [], 0, 0⟩ rfl (by decide)⟩

/-- Claim C10.  Both `extract_article` (line 96) and
`get_brocardi_information` (line 106) reconstruct the act from the supplied
identifier as `Norma(tipo_atto="costituzione", url=urn)`: the act type is
the fixed string `"costituzione"` for every identifier and does not depend
on the identifier at all. -/
theorem act_type_always_costituzione (urn urn' : String) :
    (extract_article_norma urn).tipo_atto = "costituzione" ∧
      (brocardi_norma urn).tipo_atto = "costituzione" ∧
      (extract_article_norma urn).tipo_atto = (extract_article_norma urn').tipo_atto ∧
      (brocardi_norma urn).tipo_atto = (brocardi_norma urn').tipo_atto :=
  ⟨rfl, rfl, rfl, rfl⟩

/-- Claim C4.  The article cache key is the `(Norma, article)` pair built by
the key lambda of line 75; the `extract_article` route reconstructs the
`Norma` from the caller's identifier, and `Norma` is a value type, so two
lookups with equal identifier and equal article designator use equal keys:
after a first call computed and cached a value, a second call while that
entry is live returns the cached value without invoking the compute
function and leaves the cache untouched. -/
theorem article_cache_hit {V E : Type} (m : CacheMap (Norma × String) V)
    (urn article : String) (v : V) (f2 : Except E V) (t1 t2 : Nat)
    (hmiss : lookupTTL 600 m (article_cache_key (extract_article_norma urn) article)
      t1 = none)
    (ht : t2 < t1 + 600) :
    (cachedCall 600 m (article_cache_key (extract_article_norma urn) article)
        (Except.ok v : Except E V) t1).res = Except.ok v ∧
      cachedCall 600
          (cachedCall 600 m (article_cache_key (extract_article_norma urn) article)
            (Except.ok v : Except E V) t1).cache
          (article_cache_key (extract_article_norma urn) article) f2 t2 =
        ⟨Except.ok v,
          (cachedCall 600 m (article_cache_key (extract_article_norma urn) article)
            (Except.ok v : Except E V) t1).cache, false⟩ := by
  have h1 : cachedCall 600 m (article_cache_key (extract_article_norma urn) article)
      (Except.ok v : Except E V) t1 =
      ⟨Except.ok v,
        insertTTL m (article_cache_key (extract_article_norma urn) article) v t1,
        true⟩ := by
    rw [cachedCall_miss _ _ _ _ _ hmiss]
  rw [h1]
  refine ⟨rfl, ?_⟩
  apply cachedCall_hit
  rw [lookupTTL_insert, if_pos ht]

/-- Witness for claim C4 at a concrete input: identifier `u`, article `3`,
first call at time 0, second call at time 10. -/
theorem article_cache_hit_witness :
    lookupTTL 600 (CacheMap.empty (Norma × String) String)
        (article_cache_key (extract_article_norma "u") "3") 0 = none ∧
      (10 : Nat) < 0 + 600 ∧
      ((cachedCall 600 (CacheMap.empty (Norma × String) String)
          (article_cache_key (extract_article_norma "u") "3")
          (Except.ok "testo" : Except Unit String) 0).res = Except.ok "testo" ∧
        cachedCall 600
            (cachedCall 600 (CacheMap.empty (Norma × String) String)
              (article_cache_key (extract_article_norma "u") "3")
              (Except.ok "testo" : Except Unit String) 0).cache
            (article_cache_key (extract_article_norma "u") "3")
            (Except.error () : Except Unit String) 10 =
          ⟨Except.ok "testo",
            (cachedCall 600 (CacheMap.empty (Norma × String) String)
              (article_cache_key (extract_article_norma "u") "3")
              (Except.ok "testo" : Except Unit String) 0).cache, false⟩) :=
  ⟨rfl, by decide,
    article_cache_hit (CacheMap.empty (Norma × String) String) "u" "3" "testo"
      (Except.error ()) 0 10 rfl (by decide)⟩

/-- Claim C8.  `TTLCache(ttl=600)` measures expiry from insertion: an entry
inserted at time `ti` is not returned by any lookup at a time at least
`ti + 600` — it is treated as absent, so a cached call at such a time
invokes the compute function again and returns its result, never the
expired value. -/
theorem ttl_expiry_from_insertion {K V E : Type} [DecidableEq K]
    (m : CacheMap K V) (k : K) (v : V) (ti t : Nat) (f : Except E V)
    (ht : ti + 600 ≤ t) :
    lookupTTL 600 (insertTTL m k v ti) k t = none ∧
      (cachedCall 600 (insertTTL m k v ti) k f t).computed = true ∧
      (cachedCall 600 (insertTTL m k v ti) k f t).res = f := by
  have h1 : lookupTTL 600 (insertTTL m k v ti) k t = none := by
    rw [lookupTTL_insert, if_neg (by omega)]
  refine ⟨h1, ?_, ?_⟩ <;> rw [cachedCall_miss _ _ _ _ _ h1] <;> cases f <;> rfl

/-- Witness for claim C8 at a concrete input: an entry inserted at time 0 is
gone at time 600 exactly. -/
theorem ttl_expiry_from_insertion_witness :
    (0 : Nat) + 600 ≤ 600 ∧
      (lookupTTL 600 (insertTTL (CacheMap.empty Nat Nat) 0 1 0) 0 600 = none ∧
        (cachedCall 600 (insertTTL (CacheMap.empty Nat Nat) 0 1 0) 0
          (Except.ok 2 : Except Unit Nat) 600).computed = true ∧
        (cachedCall 600 (insertTTL (CacheMap.empty Nat Nat) 0 1 0) 0
          (Except.ok 2 : Except Unit Nat) 600).res = Except.ok 2) :=
  ⟨by decide,
    ttl_expiry_from_insertion (CacheMap.empty Nat Nat) 0 1 0 600
      (Except.ok 2) (by decide)⟩

/-- Claim C9.  When the compute function raises, the `cachetools.cached`
wrapper inserts nothing: the exception propagates to the caller, the cache
contents are unchanged, and the next call for the same key (at any later
time) misses again and invokes the compute function afresh — no poisoned
entries. -/
theorem failed_compute_not_cached {K V E : Type} [DecidableEq K]
    (m : CacheMap K V) (k : K) (t t' : Nat) (e : E) (f' : Except E V)
    (hmiss : lookupTTL 600 m k t = none) (ht : t ≤ t') :
    (cachedCall 600 m k (Except.error e : Except E V) t).res = Except.error e ∧
      (cachedCall 600 m k (Except.error e : Except E V) t).cache = m ∧
      (cachedCall 600 m k (Except.error e : Except E V) t).computed = true ∧
      (cachedCall 600
          (cachedCall 600 m k (Except.error e : Except E V) t).cache
          k f' t').computed = true ∧
      (cachedCall 600
          (cachedCall 600 m k (Except.error e : Except E V) t).cache
          k f' t').res = f' := by
  have h1 : cachedCall 600 m k (Except.error e : Except E V) t =
      ⟨Except.error e, m, true⟩ := by
    rw [cachedCall_miss _ _ _ _ _ hmiss]
  rw [h1]
  have h2 : lookupTTL 600 m k t' = none := lookupTTL_none_mono 600 m k hmiss ht
  refine ⟨rfl, rfl, rfl, ?_, ?_⟩ <;> rw [cachedCall_miss _ _ _ _ _ h2] <;>
    cases f' <;> rfl

/-- Witness for claim C9 at a concrete input: a failing computation at time
0, retried successfully at time 5. -/
theorem failed_compute_not_cached_witness :
    lookupTTL 600 (CacheMap.empty Nat Nat) 0 0 = none ∧ (0 : Nat) ≤ 5 ∧
      ((cachedCall 600 (CacheMap.empty Nat Nat) 0
          (Except.error () : Except Unit Nat) 0).res = Except.error () ∧
        (cachedCall 600 (CacheMap.empty Nat Nat) 0
          (Except.error () : Except Unit Nat) 0).cache = CacheMap.empty Nat Nat ∧
        (cachedCall 600 (CacheMap.empty Nat Nat) 0
          (Except.error () : Except Unit Nat) 0).computed = true ∧
        (cachedCall 600
            (cachedCall 600 (CacheMap.empty Nat Nat) 0
              (Except.error () : Except Unit Nat) 0).cache 0
            (Except.ok 7 : Except Unit Nat) 5).computed = true ∧
        (cachedCall 600
            (cachedCall 600 (CacheMap.empty Nat Nat) 0
              (Except.error () : Except Unit Nat) 0).cache 0
            (Except.ok 7 : Except Unit Nat) 5).res = Except.ok 7) :=
  ⟨rfl, by decide,
    failed_compute_not_cached (CacheMap.empty Nat Nat) 0 0 5 ()
      (Except.ok 7) rfl (by decide)⟩

/-- Claim C7.  PDF export is idempotent: a first export for an identifier
whose derived file does not yet exist renders once and answers with the
download URL of the derived filename; a second export for the same
identifier finds the file at the deterministically derived download path,
skips the rendering collaborator entirely (the render counter does not
move, whatever the collaborator would have answered), and returns the same
URL. -/
theorem export_idempotent (utf : String → Option String) (urn fname : String)
    (s : SysState) (ok2 : Bool) (hu : utf urn = some fname)
    (hmem : downloadPath fname ∉ s.files) :
    ((export_pdf utf true urn s).1).outcome = Except.ok (url_for_download fname) ∧
      ((export_pdf utf true urn s).2).renderCount = s.renderCount + 1 ∧
      ((export_pdf utf ok2 urn (export_pdf utf true urn s).2).1).outcome =
        Except.ok (url_for_download fname) ∧
      ((export_pdf utf ok2 urn (export_pdf utf true urn s).2).2).renderCount =
        ((export_pdf utf true urn s).2).renderCount := by
  obtain ⟨ho, hr, hf, -⟩ := @export_body_render utf urn fname s hu hmem
  have hmem2 : downloadPath fname ∈ ((export_pdf utf true urn s).2).files := hf
  have h2 := @export_body_cached utf ok2 urn fname
    ((export_pdf utf true urn s).2) hu hmem2
  refine ⟨ho, hr, ?_, ?_⟩
  · show (export_pdf_body utf ok2 urn ((export_pdf utf true urn s).2)).1.outcome = _
    rw [h2]
  · show (export_pdf_body utf ok2 urn ((export_pdf utf true urn s).2)).2.renderCount = _
    rw [h2]

/-- Witness for claim C7 at a concrete input: identifier `u` with derived
filename `x.pdf`, starting from an empty download directory. -/
theorem export_idempotent_witness :
    (fun _ : String => some "x.pdf") "u" = some "x.pdf" ∧
      downloadPath "x.pdf" ∉ (⟨[], 0, [], 0, 0⟩ : SysState).files ∧
      (((export_pdf (fun _ => some "x.pdf") true "u" ⟨[], 0, [], 0, 0⟩).1).outcome =
          Except.ok (url_for_download "x.pdf") ∧
        ((export_pdf (fun _ => some "x.pdf") true "u" ⟨[], 0, [], 0, 0⟩).2).renderCount =
          (⟨[], 0, [], 0, 0⟩ : SysState).renderCount + 1 ∧
        ((export_pdf (fun _ => some "x.pdf") false "u"
            (export_pdf (fun _ => some "x.pdf") true "u" ⟨[], 0, [], 0, 0⟩).2).1).outcome =
          Except.ok (url_for_download "x.pdf") ∧
        ((export_pdf (fun _ => some "x.pdf") false "u"
            (export_pdf (fun _ => some "x.pdf") true "u" ⟨[], 0, [], 0, 0⟩).2).2).renderCount =
          ((export_pdf (fun _ => some "x.pdf") true "u" ⟨[], 0, [], 0, 0⟩).2).renderCount) :=
  ⟨rfl, by decide,
    export_idempotent (fun _ => some "x.pdf") "u" "x.pdf" ⟨[], 0, [], 0, 0⟩
      false rfl (by decide)⟩

/-- Claim C3.  Resolution is deterministic and field-order independent: for
two request dictionaries holding the same field-name/value pairs (embedded
as association lists that are permutations of one another, with the
distinct keys a dict guarantees), the resolution cache key
`convert_to_hashable` — the pair list sorted by field name — is identical,
and `create_norma_instance` builds identical `NormaVisitata` values, hence
values with identical canonical identifiers. -/
theorem resolution_deterministic {d1 d2 : List (String × String)}
    (hperm : d1.Perm d2) (hkeys : (d1.map Prod.fst).Nodup) :
    convert_to_hashable d1 = convert_to_hashable d2 ∧
      create_norma_instance d1 = create_norma_instance d2 := by
  refine ⟨sortItems_perm_eq hperm, ?_⟩
  have e : ∀ key, lookupField d1 key = lookupField d2 key := fun key =>
    lookupField_perm key hperm hkeys
  unfold create_norma_instance
  rw [e "act_type", e "date", e "act_number", e "article", e "version",
    e "version_date"]

/-- Witness for claim C3 at a concrete input: the same five fields in two
different orders. -/
theorem resolution_deterministic_witness :
    ([("act_type", "legge"), ("date", "2020-01-01"), ("act_number", "7"),
        ("article", "2"), ("version", "vigente")] : List (String × String)).Perm
        [("version", "vigente"), ("article", "2"), ("act_number", "7"),
          ("date", "2020-01-01"), ("act_type", "legge")] ∧
      (([("act_type", "legge"), ("date", "2020-01-01"), ("act_number", "7"),
          ("article", "2"), ("version", "vigente")] :
          List (String × String)).map Prod.fst).Nodup ∧
      (convert_to_hashable
          [("act_type", "legge"), ("date", "2020-01-01"), ("act_number", "7"),
            ("article", "2"), ("version", "vigente")] =
          convert_to_hashable
            [("version", "vigente"), ("article", "2"), ("act_number", "7"),
              ("date", "2020-01-01"), ("act_type", "legge")] ∧
        create_norma_instance
            [("act_type", "legge"), ("date", "2020-01-01"), ("act_number", "7"),
              ("article", "2"), ("version", "vigente")] =
          create_norma_instance
            [("version", "vigente"), ("article", "2"), ("act_number", "7"),
              ("date", "2020-01-01"), ("act_type", "legge")]) :=
  ⟨by decide, by decide, resolution_deterministic (by decide) (by decide)⟩

/-- Claim C2.  Modelled from the spec (the identifier builder lives outside
the embedded source): for every valid reference the parser inverts the
builder, `parse (build r) = some r`; and the parser accepts only the
identifier grammar — whenever `parse s` succeeds, `s` is the built
identifier of the valid reference it returns, so every string outside the
grammar is rejected (`none`, modelling `MalformedIdentifier`). -/
theorem identifier_roundtrip_and_rejection (r : ActReference)
    (hr : validRef r = true) (s : List Char) (r' : ActReference)
    (hs : parse s = some r') :
    parse (build r) = some r ∧ validRef r' = true ∧ build r' = s :=
  ⟨parse_build hr, (parse_sound hs).1, (parse_sound hs).2⟩

/-- Witness for claim C2 at a concrete input: the §8 example reference
`statute, 1990-01-01, nr. 9, art. 3, current`, whose identifier is
`urn:nir:statute:1990-01-01;9~art3!current`. -/
theorem identifier_roundtrip_and_rejection_witness :
    validRef (⟨"statute".toList, some "1990-01-01".toList, some "9".toList,
        some "3".toList, some "current".toList, none⟩ : ActReference) = true ∧
      parse "urn:nir:statute:1990-01-01;9~art3!current".toList =
        some (⟨"statute".toList, some "1990-01-01".toList, some "9".toList,
          some "3".toList, some "current".toList, none⟩ : ActReference) ∧
      (parse (build (⟨"statute".toList, some "1990-01-01".toList, some "9".toList,
            some "3".toList, some "current".toList, none⟩ : ActReference)) =
          some (⟨"statute".toList, some "1990-01-01".toList, some "9".toList,
            some "3".toList, some "current".toList, none⟩ : ActReference) ∧
        validRef (⟨"statute".toList, some "1990-01-01".toList, some "9".toList,
            some "3".toList, some "current".toList, none⟩ : ActReference) = true ∧
        build (⟨"statute".toList, some "1990-01-01".toList, some "9".toList,
            some "3".toList, some "current".toList, none⟩ : ActReference) =
          "urn:nir:statute:1990-01-01;9~art3!current".toList) :=
  ⟨by decide, by decide,
    identifier_roundtrip_and_rejection _ (by decide) _ _ (by decide)⟩

end VisuaLex
